import Mathlib

/-!
Verification of the Dictionary-Processor repository.

The repository contains four Python pipeline variants that translate nested
dictionary documents from English to Hindi through an external translation
provider, with a persistent content-addressed translation cache, batch
checkpointing and retry logic:

  * `main.py`    - real-time updating pipeline (googletrans, tenacity retry),
  * `index.py`   - queue-based two-pass pipeline (argostranslate, worker pool),
  * `master.py`  - word-entry pipeline (googletrans, tenacity retry),
  * `master_2.py`- batched word-entry pipeline (argostranslate, progress file).

This file shallowly embeds the data model and operations of those sources.
File I/O is modelled by explicit state passing (the in-memory cache map, the
work queue, the provider-call counter); the external provider is a parameter
`Provider := String -> Except Unit String`; an exception raised by Python code
is an `Except.error`.  Python `dict` objects are association lists with the
most recent write first, matching lookup/overwrite semantics.  Python
`str.strip()` in boolean position is modelled by `pyStripBlank` (ASCII
whitespace; the difference with full Unicode stripping is immaterial to the
properties proved here).
-/

/-- A translation cache: content key to translated text, most recent write
first (Python dict semantics for the operations the sources use). -/
abbrev Cache := List (String × String)

/-- The external translation provider (`googletrans` or `argostranslate`):
either a translated text or a raised exception. -/
abbrev Provider := String → Except Unit String

/-- Python whitespace as stripped by `str.strip()` (the ASCII part; the
sources' strings are never in the exotic Unicode-space cases). -/
def isPyWhitespace (c : Char) : Bool :=
  c = ' ' || c = '\t' || c = '\n' || c = '\r' || c = '\x0b' || c = '\x0c'

/-- The `not text.strip()` test of `main.py` line 53 / `index.py` line 127 and
the falsiness test on translations in `_process_single_entry`: true exactly
when the string is empty or whitespace-only. -/
def pyStripBlank (s : String) : Bool := s.data.all isPyWhitespace

/-- Python `str.isascii()`: every code point is below 128 (true on `""`).
Used by `main.py` line 62. -/
def pyIsAscii (s : String) : Bool := s.data.all (fun c => c.toNat < 128)

/-- `any(ord(char) < 128 for char in text)` from `index.py` line 136:
at least one code point below 128. -/
def hasAsciiChar (s : String) : Bool := s.data.any (fun c => c.toNat < 128)

/-! ## MD5 (`hashlib.md5(content.encode()).hexdigest()`)

`main.py` `get_content_hash` and `index.py` `get_content_hash` fingerprint a
string by the MD5 hex digest of its UTF-8 encoding.  The algorithm is embedded
below over `Nat`, with 32-bit arithmetic taken modulo `2 ^ 32`.  Bytes are
`Nat` values below 256. -/

/-- Truncate to a 32-bit word. -/
def u32 (n : Nat) : Nat := n % 4294967296

/-- 32-bit left rotation (the argument is first truncated to 32 bits). -/
def rotl32 (x s : Nat) : Nat :=
  u32 ((u32 x <<< s) ||| (u32 x >>> (32 - s)))

/-- UTF-8 encoding of one character, as a list of bytes. -/
def utf8Bytes (c : Char) : List Nat :=
  let n := c.toNat
  if n < 128 then [n]
  else if n < 2048 then
    [192 ||| (n >>> 6), 128 ||| (n &&& 63)]
  else if n < 65536 then
    [224 ||| (n >>> 12), 128 ||| ((n >>> 6) &&& 63), 128 ||| (n &&& 63)]
  else
    [240 ||| (n >>> 18), 128 ||| ((n >>> 12) &&& 63),
     128 ||| ((n >>> 6) &&& 63), 128 ||| (n &&& 63)]

/-- `content.encode()`: the UTF-8 byte sequence of a string. -/
def strBytes (s : String) : List Nat := s.data.flatMap utf8Bytes

/-- The 64 MD5 sine-derived constants `K[i] = floor(abs(sin(i+1)) * 2^32)`. -/
def md5K : List Nat :=
  [3614090360, 3905402710, 606105819, 3250441966, 4118548399, 1200080426, 2821735955, 4249261313,
   1770035416, 2336552879, 4294925233, 2304563134, 1804603682, 4254626195, 2792965006, 1236535329,
   4129170786, 3225465664, 643717713, 3921069994, 3593408605, 38016083, 3634488961, 3889429448,
   568446438, 3275163606, 4107603335, 1163531501, 2850285829, 4243563512, 1735328473, 2368359562,
   4294588738, 2272392833, 1839030562, 4259657740, 2763975236, 1272893353, 4139469664, 3200236656,
   681279174, 3936430074, 3572445317, 76029189, 3654602809, 3873151461, 530742520, 3299628645,
   4096336452, 1126891415, 2878612391, 4237533241, 1700485571, 2399980690, 4293915773, 2240044497,
   1873313359, 4264355552, 2734768916, 1309151649, 4149444226, 3174756917, 718787259, 3951481745]

/-- The 64 MD5 per-round shift amounts. -/
def md5S : List Nat :=
  [7, 12, 17, 22, 7, 12, 17, 22, 7, 12, 17, 22, 7, 12, 17, 22,
   5, 9, 14, 20, 5, 9, 14, 20, 5, 9, 14, 20, 5, 9, 14, 20,
   4, 11, 16, 23, 4, 11, 16, 23, 4, 11, 16, 23, 4, 11, 16, 23,
   6, 10, 15, 21, 6, 10, 15, 21, 6, 10, 15, 21, 6, 10, 15, 21]

/-- MD5 padding: append `0x80`, zeros up to 56 mod 64, then the 64-bit
little-endian bit length of the original message. -/
def md5Pad (bs : List Nat) : List Nat :=
  let len := bs.length
  let zeros := (120 - (len + 1) % 64) % 64
  let bitLen := (8 * len) % (2 ^ 64)
  bs ++ [128] ++ List.replicate zeros 0 ++
    (List.range 8).map (fun j => (bitLen >>> (8 * j)) % 256)

/-- Split a byte list into 64-byte chunks. -/
def chunks64 (bs : List Nat) : List (List Nat) :=
  if h : bs = [] then [] else
    bs.take 64 :: chunks64 (bs.drop 64)
termination_by bs.length
decreasing_by
  simp only [List.length_drop]
  have : bs.length ≠ 0 := fun hl => h (List.length_eq_zero.mp hl)
  omega

/-- The `i`-th little-endian 32-bit word of a 64-byte chunk. -/
def leWord (chunk : List Nat) (i : Nat) : Nat :=
  chunk.getD (4 * i) 0 + 256 * chunk.getD (4 * i + 1) 0 +
    65536 * chunk.getD (4 * i + 2) 0 + 16777216 * chunk.getD (4 * i + 3) 0

/-- One MD5 round on the state `(a, b, c, d)` with message-word accessor `m`. -/
def md5Round (m : Nat → Nat) (st : Nat × Nat × Nat × Nat) (i : Nat) :
    Nat × Nat × Nat × Nat :=
  let (a, b, c, d) := st
  let f :=
    if i < 16 then (b &&& c) ||| ((4294967295 ^^^ b) &&& d)
    else if i < 32 then (d &&& b) ||| ((4294967295 ^^^ d) &&& c)
    else if i < 48 then b ^^^ c ^^^ d
    else c ^^^ (b ||| (4294967295 ^^^ d))
  let g :=
    if i < 16 then i
    else if i < 32 then (5 * i + 1) % 16
    else if i < 48 then (3 * i + 5) % 16
    else (7 * i) % 16
  let tmp := u32 (a + f + md5K.getD i 0 + m g)
  (d, u32 (b + rotl32 tmp (md5S.getD i 0)), b, c)

/-- Process a list of 64-byte chunks starting from the given state. -/
def md5Chunks : Nat × Nat × Nat × Nat → List (List Nat) → Nat × Nat × Nat × Nat
  | st, [] => st
  | (a0, b0, c0, d0), chunk :: rest =>
    let s := (List.range 64).foldl (md5Round (leWord chunk)) (a0, b0, c0, d0)
    md5Chunks (u32 (a0 + s.1), u32 (b0 + s.2.1), u32 (c0 + s.2.2.1), u32 (d0 + s.2.2.2)) rest

/-- The four little-endian bytes of a 32-bit word. -/
def leBytes (w : Nat) : List Nat :=
  [w % 256, w / 256 % 256, w / 65536 % 256, w / 16777216 % 256]

/-- The 16-byte MD5 digest of a string's UTF-8 encoding. -/
def md5Digest (s : String) : List Nat :=
  let r := md5Chunks (1732584193, 4023233417, 2562383102, 271733878)
    (chunks64 (md5Pad (strBytes s)))
  leBytes r.1 ++ leBytes r.2.1 ++ leBytes r.2.2.1 ++ leBytes r.2.2.2

/-- One lowercase hex digit: `0`-`9` for values below ten, `a`-`f` above. -/
def hexDigit (n : Nat) : Char :=
  if n < 10 then Char.ofNat (48 + n) else Char.ofNat (87 + n)

/-- Lowercase hex rendering of a byte list, two digits per byte. -/
def bytesToHex : List Nat → List Char
  | [] => []
  | b :: bs => hexDigit (b / 16) :: hexDigit (b % 16) :: bytesToHex bs

/-- `hashlib.md5(s.encode()).hexdigest()`: the 32-character hex digest. -/
def md5hex (s : String) : String := String.mk (bytesToHex (md5Digest s))

/-- `get_content_hash` from `main.py` lines 43-47 and `index.py` lines 68-71
(the sources only call it on `str` content, so the `None` branch for non-string
input is not modelled). -/
def get_content_hash (content : String) : String := md5hex content

/-! ## Translation state

The mutable state a translate call touches: the in-memory cache and a counter
of provider invocations (the counter is ghost instrumentation used to state
"the provider is / is not called"; cache-file flushes are keyed off the same
events and are not modelled separately). -/

/-- State threaded through `main.py` / `master.py` / `master_2.py` translate
calls. -/
structure TState where
  cache : Cache
  providerCalls : Nat
deriving DecidableEq, Repr

/-- `tenacity.wait_exponential(multiplier, min, max)` evaluated after the
`attempt`-th failed attempt: `multiplier * 2 ^ attempt` clamped into
`[mn, mx]`. -/
def wait_exponential (multiplier mn mx attempt : Nat) : Nat :=
  Nat.max mn (Nat.min (multiplier * 2 ^ attempt) mx)

/-- `@retry(stop=stop_after_attempt(3), wait=wait_exponential(multiplier=1,
min=4, max=10))`: run the body up to three times, stopping at the first
success; the returned list records the backoff delays slept between
attempts. -/
def retryCall {σ : Type} (body : σ → Except Unit String × σ) (st : σ) :
    Except Unit String × σ × List Nat :=
  match body st with
  | (Except.ok r, st1) => (Except.ok r, st1, [])
  | (Except.error _, st1) =>
    match body st1 with
    | (Except.ok r, st2) => (Except.ok r, st2, [wait_exponential 1 4 10 1])
    | (Except.error _, st2) =>
      match body st2 with
      | (Except.ok r, st3) =>
        (Except.ok r, st3, [wait_exponential 1 4 10 1, wait_exponential 1 4 10 2])
      | (Except.error e, st3) =>
        (Except.error e, st3, [wait_exponential 1 4 10 1, wait_exponential 1 4 10 2])

/-- The body of `main.py` `translate_text` (lines 50-76): pass through
non-stripping text; return a cached translation; otherwise, when the text is
entirely ASCII, call the provider, cache the result and return it, re-raising
any provider exception; non-ASCII text passes through.  (The decorated entry
point is `translate_text_main` below; `print` calls and the cache-file flush
on the success path are elided.) -/
def translate_text_main_body (p : Provider) (st : TState) (text : String) :
    Except Unit String × TState :=
  if pyStripBlank text then (Except.ok text, st)
  else
    let h := get_content_hash text
    match st.cache.lookup h with
    | some t => (Except.ok t, st)
    | none =>
      if pyIsAscii text then
        match p text with
        | Except.ok tr =>
          (Except.ok tr, ⟨(h, tr) :: st.cache, st.providerCalls + 1⟩)
        | Except.error e =>
          (Except.error e, { st with providerCalls := st.providerCalls + 1 })
      else (Except.ok text, st)

/-- `main.py` `translate_text`: the body under its tenacity retry decorator. -/
def translate_text_main (p : Provider) (st : TState) (text : String) :
    Except Unit String × TState × List Nat :=
  retryCall (fun s => translate_text_main_body p s text) st

/-- The body of `master.py` `_translate_meaning` (lines 58-78): cached value,
else provider call with cache write; the `except Exception` clause catches
every failure and returns the original meaning, so the body never raises.
(The random rate-limit sleep and prints are elided.) -/
def translate_meaning_master_try (p : Provider) (st : TState) (m : String) :
    Except Unit String × TState :=
  match st.cache.lookup m with
  | some t => (Except.ok t, st)
  | none =>
    match p m with
    | Except.ok tr => (Except.ok tr, ⟨(m, tr) :: st.cache, st.providerCalls + 1⟩)
    | Except.error _ => (Except.ok m, { st with providerCalls := st.providerCalls + 1 })

/-- `master.py` `_translate_meaning`: the try/except body under its tenacity
retry decorator (the decorator only retries on a raised exception). -/
def translate_meaning_master (p : Provider) (st : TState) (m : String) :
    Except Unit String × TState × List Nat :=
  retryCall (fun s => translate_meaning_master_try p s m) st

/-- `master_2.py` `_translate_meaning` (lines 116-133): cached value keyed by
the raw meaning, else one provider call with cache write; any exception is
caught and the original meaning returned.  No retry decorator. -/
def translate_meaning_master2 (p : Provider) (st : TState) (m : String) :
    String × TState :=
  match st.cache.lookup m with
  | some t => (t, st)
  | none =>
    match p m with
    | Except.ok tr => (tr, ⟨(m, tr) :: st.cache, st.providerCalls + 1⟩)
    | Except.error _ => (m, { st with providerCalls := st.providerCalls + 1 })

/-! ## index.py queue-based client -/

/-- State of the queue-based pipeline: cache, FIFO work queue of
`(text, content_hash)` pairs, and the ghost provider-call counter. -/
structure QState where
  cache : Cache
  queue : List (String × String)
  providerCalls : Nat
deriving DecidableEq, Repr

/-- `index.py` `translate_text` (lines 124-143): pass through non-stripping
text; return a cached translation; otherwise, when at least one character is
ASCII, enqueue `(text, content_hash)` and return the original text (to be
updated by the second traversal pass); non-ASCII text passes through.  It
never calls the provider itself. -/
def translate_text_index (st : QState) (text : String) : String × QState :=
  if pyStripBlank text then (text, st)
  else
    let h := get_content_hash text
    match st.cache.lookup h with
    | some t => (t, st)
    | none =>
      if hasAsciiChar text then
        (text, { st with queue := st.queue ++ [(text, h)] })
      else (text, st)

/-- `index.py` `batch_translate` (lines 73-87): translate the texts in order;
the first provider exception propagates (aborting the rest of the batch).
The second component counts provider calls made. -/
def batch_translate (p : Provider) : List String → Except Unit (List String) × Nat
  | [] => (Except.ok [], 0)
  | t :: ts =>
    match p t with
    | Except.ok tr =>
      match batch_translate p ts with
      | (Except.ok trs, n) => (Except.ok (tr :: trs), n + 1)
      | (Except.error e, n) => (Except.error e, n + 1)
    | Except.error e => (Except.error e, 1)

/-- Write `zip(hashes, translations)` into the cache in order (later writes
for a repeated key shadow earlier ones, as for a Python dict). -/
def writeTranslations : Cache → List String → List String → Cache
  | c, h :: hs, t :: ts => writeTranslations ((h, t) :: c) hs ts
  | c, _, _ => c

/-- `index.py` `_process_batch` (lines 111-122): translate the whole batch,
then under the cache lock write every `content_hash -> translation` pair and
flush.  A batch-translate exception propagates and the cache is not touched. -/
def process_batch_index (p : Provider) (st : QState)
    (batch : List (String × String)) : Except Unit QState :=
  match batch_translate p (batch.map Prod.fst) with
  | (Except.error e, _) => Except.error e
  | (Except.ok trs, n) =>
    Except.ok { st with
      cache := writeTranslations st.cache (batch.map Prod.snd) trs,
      providerCalls := st.providerCalls + n }

/-! ## Structured-content documents

`main.py` `translate_content_list` and `index.py` `_process_content_item`
walk lists of items; an item is a dict whose `content` field is either a
string leaf or a nested list of items; anything else is skipped.  The real
functions mutate the document in place; the embedding returns the updated
tree.  (`main.py`'s modified-flag bookkeeping and its incremental file
rewrites are orthogonal to the properties below and elided.) -/

/-- A structured-content item. -/
inductive CItem where
  | leaf : String → CItem
  | node : List CItem → CItem
  | other : CItem

mutual

/-- The string leaves of one item, in traversal order. -/
def leaves_item : CItem → List String
  | CItem.leaf s => [s]
  | CItem.node l => leaves_list l
  | CItem.other => []

/-- The string leaves of an item list, in traversal order. -/
def leaves_list : List CItem → List String
  | [] => []
  | i :: is => leaves_item i ++ leaves_list is

end

mutual

/-- One item of `main.py` `translate_content_list` (lines 84-102): translate a
string leaf through the retried `translate_text`, recurse into a nested list;
a raised translation error propagates (aborting the walk). -/
def tcl_item (p : Provider) (st : TState) : CItem → Except Unit CItem × TState
  | CItem.leaf s =>
    match translate_text_main p st s with
    | (Except.ok t, st1, _) => (Except.ok (CItem.leaf t), st1)
    | (Except.error e, st1, _) => (Except.error e, st1)
  | CItem.node l =>
    match tcl_list p st l with
    | (Except.ok l2, st1) => (Except.ok (CItem.node l2), st1)
    | (Except.error e, st1) => (Except.error e, st1)
  | CItem.other => (Except.ok CItem.other, st)

/-- `main.py` `translate_content_list` over a list of items, left to right. -/
def tcl_list (p : Provider) (st : TState) : List CItem → Except Unit (List CItem) × TState
  | [] => (Except.ok [], st)
  | i :: is =>
    match tcl_item p st i with
    | (Except.ok i2, st1) =>
      match tcl_list p st1 is with
      | (Except.ok is2, st2) => (Except.ok (i2 :: is2), st2)
      | (Except.error e, st2) => (Except.error e, st2)
    | (Except.error e, st1) => (Except.error e, st1)

end

mutual

/-- `index.py` `_process_content_item` (lines 187-194): replace a string leaf
by `translate_text`'s result (cache hit or pass-through-and-enqueue), recurse
into nested lists.  Total: `index.py`'s `translate_text` raises nothing. -/
def process_content_item (st : QState) : CItem → CItem × QState
  | CItem.leaf s =>
    let r := translate_text_index st s
    (CItem.leaf r.1, r.2)
  | CItem.node l =>
    let r := process_content_items st l
    (CItem.node r.1, r.2)
  | CItem.other => (CItem.other, st)

/-- `index.py` traversal over a list of items, left to right. -/
def process_content_items (st : QState) : List CItem → List CItem × QState
  | [] => ([], st)
  | i :: is =>
    let r := process_content_item st i
    let r2 := process_content_items r.2 is
    (r.1 :: r2.1, r2.2)

end

/-! ## Word-entry processing (`master.py` / `master_2.py`) -/

/-- A `kanji` / `kana` element: a dict with a `text` field. -/
structure KanaText where
  text : String
deriving DecidableEq, Repr

/-- A gloss: `{lang, text}`. -/
structure Gloss where
  lang : String
  text : String
deriving DecidableEq, Repr

/-- A sense: a list of glosses. -/
structure Sense where
  gloss : List Gloss
deriving DecidableEq, Repr

/-- A JMdict word entry as the sources read it. -/
structure WordEntry where
  kanji : List KanaText
  kana : List KanaText
  sense : List Sense
deriving DecidableEq, Repr

/-- An output entry `{kanji, kana, meaning}`. -/
structure OutputEntry where
  kanji : List String
  kana : List String
  meaning : List String
deriving DecidableEq, Repr

/-- `[gloss['text'] for sense in entry['sense'] for gloss in sense['gloss']
if gloss['lang'] == 'eng']` (`master.py` line 86, `master_2.py` line 142). -/
def english_meanings (e : WordEntry) : List String :=
  e.sense.flatMap (fun s =>
    (s.gloss.filter (fun g => g.lang == "eng")).map (fun g => g.text))

/-- The translation loop of `_process_single_entry` (`master.py` lines 89-94,
`master_2.py` lines 145-149), parameterized by the state-threaded translate
call: each meaning is translated in order and appended to the output only when
the translation is non-empty after stripping (`if hindi_translation and
hindi_translation.strip()`). -/
def translate_meanings {σ : Type} (tr : σ → String → String × σ) (st : σ) :
    List String → List String × σ
  | [] => ([], st)
  | m :: rest =>
    let r := tr st m
    let r2 := translate_meanings tr r.2 rest
    (if pyStripBlank r.1 then r2.1 else r.1 :: r2.1, r2.2)

/-- The same loop without the emptiness filter: every translation result in
order (used to characterize `translate_meanings` as a filter). -/
def map_translate {σ : Type} (tr : σ → String → String × σ) (st : σ) :
    List String → List String × σ
  | [] => ([], st)
  | m :: rest =>
    let r := tr st m
    let r2 := map_translate tr r.2 rest
    (r.1 :: r2.1, r2.2)

/-- `_process_single_entry` (`master.py` lines 80-103, `master_2.py` lines
135-156): extract kanji/kana texts and English meanings, translate the
meanings keeping only non-blank results. -/
def process_single_entry {σ : Type} (tr : σ → String → String × σ) (st : σ)
    (e : WordEntry) : OutputEntry × σ :=
  let r := translate_meanings tr st (english_meanings e)
  ({ kanji := e.kanji.map KanaText.text,
     kana := e.kana.map KanaText.text,
     meaning := r.1 }, r.2)

/-! ## Persistent file loading (cache and progress files) -/

/-- The observable condition of a JSON file on disk: absent, present but
unparsable, or present with parsed contents. -/
inductive JsonFile (α : Type) where
  | missing : JsonFile α
  | corrupt : JsonFile α
  | valid : α → JsonFile α

/-- `index.py` `load_translation_cache` (lines 53-61) and `main.py`
`load_translation_cache` (lines 26-35): missing file yields `{}` (the
`os.path.exists` guard), any load exception yields `{}` (bare `except`). -/
def load_translation_cache_index : JsonFile Cache → Cache
  | JsonFile.missing => []
  | JsonFile.corrupt => []
  | JsonFile.valid c => c

/-- `master.py` `_load_translation_cache` (lines 28-35): only
`FileNotFoundError` is caught, so a present-but-unparsable file re-raises the
`json.JSONDecodeError`. -/
def load_translation_cache_master : JsonFile Cache → Except Unit Cache
  | JsonFile.missing => Except.ok []
  | JsonFile.corrupt => Except.error ()
  | JsonFile.valid c => Except.ok c

/-- `master_2.py` `_load_translation_cache` (lines 53-59): both
`FileNotFoundError` and `json.JSONDecodeError` are caught and yield `{}`. -/
def load_translation_cache_master2 : JsonFile Cache → Cache
  | JsonFile.missing => []
  | JsonFile.corrupt => []
  | JsonFile.valid c => c

/-! ## Progress tracking and batch commit (`master_2.py`) -/

/-- The persisted progress record `{processed_batches, total_batches}`. -/
structure Progress where
  processed_batches : Nat
  total_batches : Nat
deriving DecidableEq, Repr

/-- `master_2.py` `_load_processing_progress` (lines 71-77): missing or
unparsable progress file yields `{processed_batches: 0, total_batches: 0}`. -/
def load_processing_progress : JsonFile Progress → Progress
  | JsonFile.missing => ⟨0, 0⟩
  | JsonFile.corrupt => ⟨0, 0⟩
  | JsonFile.valid p => p

/-- The three effectful steps of `master_2.py` `_save_batch_progress`
(lines 98-114) in source order: extend `self.processed_data`, write the output
file, write the progress file. -/
inductive CommitStep where
  | extendData
  | writeOutput
  | writeProgress
deriving DecidableEq, Repr

/-- The statement order inside `_save_batch_progress`. -/
def commitSteps : List CommitStep := [CommitStep.extendData, CommitStep.writeOutput, CommitStep.writeProgress]

/-- Exception semantics of a straight-line Python block: steps run in order
and the first step that raises stops the block (its effect does not happen);
the result is the list of steps that completed. -/
def runSteps (failsAt : CommitStep → Bool) : List CommitStep → List CommitStep
  | [] => []
  | s :: rest => if failsAt s then [] else s :: runSteps failsAt rest

/-- State effect of `master_2.py` `_save_batch_progress`: given whether the
output write raises, return the new in-memory `processed_data` (extended
before the write in the source) together with the durable output-file and
progress-file contents.  The surrounding `except` swallows the error, so the
caller continues either way. -/
def save_batch_progress {α : Type} (outputWriteFails : Bool)
    (processedData batchEntries : List α) (processedBatches totalBatches : Nat)
    (outFile : List α) (progressFile : Progress) :
    List α × List α × Progress :=
  let newData := processedData ++ batchEntries
  if outputWriteFails then
    (newData, outFile, progressFile)
  else
    (newData, newData, ⟨processedBatches, totalBatches⟩)

/-- `(len(words) + self.batch_size - 1) // self.batch_size`
(`master_2.py` line 166). -/
def totalBatchesOf (numWords batchSize : Nat) : Nat :=
  (numWords + batchSize - 1) / batchSize

/-- The startup logic of `master_2.py` `process_dictionary` (lines 158-174):
compute `total_batches` from the input, take the resume point from the stored
record, and when the stored `total_batches` differs rewrite the record with
the new total while keeping the resume point.  Returns
`(start_batch, total_batches, rewritten record if any)`. -/
def startup_reconcile (stored : Progress) (numWords batchSize : Nat) :
    Nat × Nat × Option Progress :=
  let total := totalBatchesOf numWords batchSize
  let start := stored.processed_batches
  (start, total,
    if stored.total_batches ≠ total then some ⟨start, total⟩ else none)

/-- The batch indices the `for batch_num in range(start_batch, total_batches)`
loop visits, in order. -/
def batchIndices (start total : Nat) : List Nat := List.range' start (total - start)

/-- Value of a little-endian byte list as a natural number (used to show the
digest space is finite). -/
def natOfBytes : List Nat → Nat
  | [] => 0
  | b :: bs => b + 256 * natOfBytes bs

/-- Cache coverage of one leaf: if the leaf would be sent to the provider by
`main.py` (non-blank and entirely ASCII), its fingerprint is already cached. -/
def covered (c : Cache) (s : String) : Prop :=
  pyStripBlank s = false → pyIsAscii s = true → ∃ v, c.lookup (get_content_hash s) = some v

/-! ## Lemmas about the fingerprint -/

/-- Each little-endian byte of a word is below 256. -/
theorem leBytes_lt (w : Nat) : ∀ b ∈ leBytes w, b < 256 := by
  intro b hb
  simp only [leBytes, List.mem_cons, List.not_mem_nil, or_false] at hb
  rcases hb with h | h | h | h <;> subst h <;> exact Nat.mod_lt _ (by norm_num)

/-- The MD5 digest always has 16 bytes. -/
theorem md5Digest_length (s : String) : (md5Digest s).length = 16 := by
  simp [md5Digest, leBytes]

/-- Every MD5 digest byte is below 256. -/
theorem md5Digest_lt (s : String) : ∀ b ∈ md5Digest s, b < 256 := by
  intro b hb
  simp only [md5Digest, List.mem_append] at hb
  rcases hb with ((h | h) | h) | h <;> exact leBytes_lt _ b h

/-- A list of bytes below 256 has value below `256 ^ length`. -/
theorem natOfBytes_lt : ∀ l : List Nat, (∀ b ∈ l, b < 256) →
    natOfBytes l < 256 ^ l.length := by
  intro l
  induction l with
  | nil => intro _; simp [natOfBytes]
  | cons b bs ih =>
    intro h
    have hb : b < 256 := h b (by simp)
    have hrest := ih (fun x hx => h x (by simp [hx]))
    have h1 : b + 256 * natOfBytes bs < 256 * (natOfBytes bs + 1) := by omega
    have h2 : 256 * (natOfBytes bs + 1) ≤ 256 * 256 ^ bs.length := by
      exact Nat.mul_le_mul_left 256 (by omega)
    simp only [natOfBytes, List.length_cons, pow_succ]
    calc b + 256 * natOfBytes bs < 256 * (natOfBytes bs + 1) := h1
      _ ≤ 256 * 256 ^ bs.length := h2
      _ = 256 ^ bs.length * 256 := by ring

/-- Base-256 representations of equal length and value coincide. -/
theorem natOfBytes_inj : ∀ l1 l2 : List Nat, l1.length = l2.length →
    (∀ b ∈ l1, b < 256) → (∀ b ∈ l2, b < 256) →
    natOfBytes l1 = natOfBytes l2 → l1 = l2 := by
  intro l1
  induction l1 with
  | nil =>
    intro l2 hlen _ _ _
    cases l2 with
    | nil => rfl
    | cons c cs => simp at hlen
  | cons b bs ih =>
    intro l2 hlen h1 h2 heq
    cases l2 with
    | nil => simp at hlen
    | cons c cs =>
      simp only [natOfBytes] at heq
      have hb : b < 256 := h1 b (by simp)
      have hc : c < 256 := h2 c (by simp)
      have hhead : b = c := by omega
      have htail : natOfBytes bs = natOfBytes cs := by omega
      have := ih cs (by simpa using hlen)
        (fun x hx => h1 x (by simp [hx])) (fun x hx => h2 x (by simp [hx])) htail
      rw [hhead, this]

/-- The fingerprint is not injective: strings are infinite, digests live in a
space of `256 ^ 16` values, so two distinct strings share an MD5 hex digest
(classical pigeonhole; no explicit collision is exhibited). -/
theorem md5hex_not_injective : ∃ s1 s2 : String, s1 ≠ s2 ∧ md5hex s1 = md5hex s2 := by
  have hpigeon := Finite.exists_ne_map_eq_of_infinite
    (fun s : String => (⟨natOfBytes (md5Digest s), by
      have h := natOfBytes_lt (md5Digest s) (md5Digest_lt s)
      rwa [md5Digest_length] at h⟩ : Fin (256 ^ 16)))
  obtain ⟨s1, s2, hne, heq⟩ := hpigeon
  refine ⟨s1, s2, hne, ?_⟩
  have hval : natOfBytes (md5Digest s1) = natOfBytes (md5Digest s2) := by
    have := congrArg Fin.val heq
    simpa using this
  have hdig : md5Digest s1 = md5Digest s2 :=
    natOfBytes_inj _ _ (by rw [md5Digest_length, md5Digest_length])
      (md5Digest_lt s1) (md5Digest_lt s2) hval
  show String.mk (bytesToHex (md5Digest s1)) = String.mk (bytesToHex (md5Digest s2))
  rw [hdig]

/-- The hex rendering has two characters per byte. -/
theorem bytesToHex_length : ∀ l : List Nat, (bytesToHex l).length = 2 * l.length := by
  intro l
  induction l with
  | nil => simp [bytesToHex]
  | cons b bs ih => simp only [bytesToHex, List.length_cons, ih]; omega

/-- The fingerprint of any string is a 32-character string. -/
theorem md5hex_length (s : String) : (md5hex s).length = 32 := by
  show (String.mk (bytesToHex (md5Digest s))).length = 32
  show (bytesToHex (md5Digest s)).length = 32
  rw [bytesToHex_length, md5Digest_length]

/-! ## Lemmas about the translation clients -/

/-- With a covering cache, the body of `main.py` `translate_text` answers from
the cache (or passes through) without touching the provider or the state. -/
theorem translate_text_main_body_covered (p : Provider) (st : TState) (s : String)
    (h : covered st.cache s) :
    ∃ r, translate_text_main_body p st s = (Except.ok r, st) := by
  cases h0 : pyStripBlank s with
  | true => exact ⟨s, by simp [translate_text_main_body, h0]⟩
  | false =>
    cases hl : st.cache.lookup (get_content_hash s) with
    | some t => exact ⟨t, by simp [translate_text_main_body, h0, hl]⟩
    | none =>
      have ha : pyIsAscii s = false := by
        cases hc : pyIsAscii s with
        | false => rfl
        | true =>
          obtain ⟨v, hv⟩ := h h0 hc
          rw [hv] at hl
          cases hl
      exact ⟨s, by simp [translate_text_main_body, h0, hl, ha]⟩

/-- The retried `translate_text` behaves like its body when the body does not
raise: one attempt, no backoff. -/
theorem retryCall_ok {σ : Type} (body : σ → Except Unit String × σ) (st : σ)
    (r : String) (st1 : σ) (h : body st = (Except.ok r, st1)) :
    retryCall body st = (Except.ok r, st1, []) := by
  simp [retryCall, h]

/-- With a covering cache, `main.py` `translate_text` succeeds without
provider calls, state changes or retries. -/
theorem translate_text_main_covered (p : Provider) (st : TState) (s : String)
    (h : covered st.cache s) :
    ∃ r, translate_text_main p st s = (Except.ok r, st, []) := by
  obtain ⟨r, hr⟩ := translate_text_main_body_covered p st s h
  exact ⟨r, retryCall_ok _ st r st hr⟩

mutual

/-- With a covering cache, the `main.py` walk of one item succeeds and leaves
the state (cache and provider-call count) unchanged. -/
theorem tcl_item_covered (p : Provider) (st : TState) (i : CItem)
    (h : ∀ s ∈ leaves_item i, covered st.cache s) :
    ∃ out, tcl_item p st i = (Except.ok out, st) := by
  cases i with
  | leaf s =>
    obtain ⟨r, hr⟩ := translate_text_main_covered p st s (h s (by simp [leaves_item]))
    exact ⟨CItem.leaf r, by simp [tcl_item, hr]⟩
  | node l =>
    obtain ⟨out, hout⟩ := tcl_list_covered p st l (by simpa [leaves_item] using h)
    exact ⟨CItem.node out, by simp [tcl_item, hout]⟩
  | other => exact ⟨CItem.other, by simp [tcl_item]⟩

/-- With a covering cache, the `main.py` walk of an item list succeeds and
leaves the state unchanged. -/
theorem tcl_list_covered (p : Provider) (st : TState) (l : List CItem)
    (h : ∀ s ∈ leaves_list l, covered st.cache s) :
    ∃ out, tcl_list p st l = (Except.ok out, st) := by
  cases l with
  | nil => exact ⟨[], by simp [tcl_list]⟩
  | cons i is =>
    obtain ⟨i2, hi⟩ := tcl_item_covered p st i
      (fun s hs => h s (by simp [leaves_list, hs]))
    obtain ⟨is2, his⟩ := tcl_list_covered p st is
      (fun s hs => h s (by simp [leaves_list, hs]))
    exact ⟨i2 :: is2, by simp [tcl_list, hi, his]⟩

end

/-! ## Claims -/

/-- C5 counterexample: the claimed equivalence
`fingerprint(s1) == fingerprint(s2) iff s1 == s2` is false: `get_content_hash`
maps the infinitely many strings into the `256 ^ 16` possible 16-byte digests,
so it cannot be injective. -/
theorem claim5_counterexample :
    ¬ (∀ s1 s2 : String, get_content_hash s1 = get_content_hash s2 ↔ s1 = s2) := by
  intro h
  obtain ⟨s1, s2, hne, heq⟩ := md5hex_not_injective
  exact hne ((h s1 s2).mp heq)

/-- C5 (amended): the fingerprint `get_content_hash` is deterministic (equal
strings get equal fingerprints, hence distinct fingerprints imply distinct
strings) and always a 32-character hex digest, but it is not injective: some
two distinct strings share a fingerprint (pigeonhole on the 128-bit digest
space). -/
theorem claim5_theorem :
    (∀ s1 s2 : String, s1 = s2 → get_content_hash s1 = get_content_hash s2)
    ∧ (∀ s1 s2 : String, get_content_hash s1 ≠ get_content_hash s2 → s1 ≠ s2)
    ∧ (∀ s : String, (get_content_hash s).length = 32)
    ∧ (∃ s1 s2 : String, s1 ≠ s2 ∧ get_content_hash s1 = get_content_hash s2) := by
  refine ⟨fun s1 s2 h => by rw [h], fun s1 s2 h hc => h (by rw [hc]), ?_, ?_⟩
  · intro s
    exact md5hex_length s
  · exact md5hex_not_injective

/-- Witness for C5 at the concrete string `"a"`. -/
theorem claim5_witness :
    get_content_hash "a" = get_content_hash "a" ∧ (get_content_hash "a").length = 32 :=
  ⟨claim5_theorem.1 "a" "a" rfl, claim5_theorem.2.2.1 "a"⟩

/-- C6 counterexample: `master.py` `_load_translation_cache` only catches
`FileNotFoundError`, so a present-but-unparsable cache file raises instead of
yielding the empty cache. -/
theorem claim6_counterexample :
    load_translation_cache_master JsonFile.corrupt = Except.error () ∧
    load_translation_cache_master JsonFile.corrupt ≠ Except.ok ([] : Cache) := by
  exact ⟨rfl, by intro h; cases h⟩

/-- C6 (amended): the cache loaders of `index.py`/`main.py` and of
`master_2.py` yield the empty cache on both a missing and a corrupt file, but
`master.py`'s loader only handles the missing file: a corrupt file raises the
JSON decode error. -/
theorem claim6_theorem :
    load_translation_cache_index JsonFile.missing = [] ∧
    load_translation_cache_index JsonFile.corrupt = [] ∧
    load_translation_cache_master2 JsonFile.missing = [] ∧
    load_translation_cache_master2 JsonFile.corrupt = [] ∧
    load_translation_cache_master JsonFile.missing = Except.ok [] ∧
    load_translation_cache_master JsonFile.corrupt = Except.error () ∧
    (∀ c : Cache, load_translation_cache_index (JsonFile.valid c) = c) ∧
    (∀ c : Cache, load_translation_cache_master (JsonFile.valid c) = Except.ok c) :=
  ⟨rfl, rfl, rfl, rfl, rfl, rfl, fun _ => rfl, fun _ => rfl⟩

/-- Looking up the key most recently written to a cache. -/
theorem lookup_head (k v : String) (c : Cache) : ((k, v) :: c).lookup k = some v := by
  simp [List.lookup]

/-- C1: with a cache already covering every translatable leaf, a `main.py`
document walk succeeds with the state unchanged - in particular zero provider
calls (`providerCalls` is unchanged) and no cache writes - and running the
walk again from the resulting state returns the identical output; moreover
every lookup path (`main.py` `translate_text`, `master_2.py`
`_translate_meaning`, `index.py` `translate_text`) returns the cached value
with an unchanged state, before any provider call or enqueue. -/
theorem claim1_theorem :
    (∀ (p : Provider) (st : TState) (l : List CItem),
        (∀ s ∈ leaves_list l, covered st.cache s) →
        ∃ out, tcl_list p st l = (Except.ok out, st) ∧
          tcl_list p (tcl_list p st l).2 l = (Except.ok out, st))
    ∧ (∀ (p : Provider) (st : TState) (m v : String),
        st.cache.lookup m = some v → translate_meaning_master2 p st m = (v, st))
    ∧ (∀ (st : QState) (t v : String), pyStripBlank t = false →
        st.cache.lookup (get_content_hash t) = some v →
        translate_text_index st t = (v, st))
    ∧ (∀ (p : Provider) (st : TState) (t v : String), pyStripBlank t = false →
        st.cache.lookup (get_content_hash t) = some v →
        translate_text_main p st t = (Except.ok v, st, [])) := by
  refine ⟨?_, ?_, ?_, ?_⟩
  · intro p st l h
    obtain ⟨out, hout⟩ := tcl_list_covered p st l h
    refine ⟨out, hout, ?_⟩
    rw [hout]
    exact hout
  · intro p st m v h
    simp [translate_meaning_master2, h]
  · intro st t v h0 h1
    simp [translate_text_index, h0, h1]
  · intro p st t v h0 h1
    apply retryCall_ok
    show translate_text_main_body p st t = (Except.ok v, st)
    simp [translate_text_main_body, h0, h1]

/-- Witness for C1: a one-leaf document whose fingerprint is cached, and
direct cache hits on each lookup path, all with a provider that always
fails (so any provider call would be visible). -/
theorem claim1_witness :
    (∃ out,
        tcl_list (fun _ => Except.error ()) ⟨[(get_content_hash "hi", "X")], 0⟩
            [CItem.leaf "hi"] =
          (Except.ok out, ⟨[(get_content_hash "hi", "X")], 0⟩) ∧
        tcl_list (fun _ => Except.error ())
            (tcl_list (fun _ => Except.error ()) ⟨[(get_content_hash "hi", "X")], 0⟩
              [CItem.leaf "hi"]).2 [CItem.leaf "hi"] =
          (Except.ok out, ⟨[(get_content_hash "hi", "X")], 0⟩))
    ∧ translate_meaning_master2 (fun _ => Except.error ()) ⟨[("a", "b")], 0⟩ "a" =
        ("b", ⟨[("a", "b")], 0⟩)
    ∧ translate_text_index ⟨[(get_content_hash "hi", "X")], [], 0⟩ "hi" =
        ("X", ⟨[(get_content_hash "hi", "X")], [], 0⟩)
    ∧ translate_text_main (fun _ => Except.error ()) ⟨[(get_content_hash "hi", "X")], 0⟩ "hi" =
        (Except.ok "X", ⟨[(get_content_hash "hi", "X")], 0⟩, []) := by
  refine ⟨claim1_theorem.1 _ _ _ ?_, claim1_theorem.2.1 _ _ _ _ ?_,
    claim1_theorem.2.2.1 _ _ _ (by decide) ?_, claim1_theorem.2.2.2 _ _ _ _ (by decide) ?_⟩
  · intro s hs
    simp only [leaves_list, leaves_item, List.append_nil, List.mem_singleton] at hs
    subst hs
    intro _ _
    exact ⟨"X", lookup_head _ _ _⟩
  · exact lookup_head _ _ _
  · exact lookup_head _ _ _
  · exact lookup_head _ _ _

/-- C2: in `master_2.py` `_save_batch_progress` the progress record is written
only after the batch output file has been written (the only executed sequence
containing `writeProgress` is extend-output-progress in that order), and an
I/O error on the output write leaves the progress file untouched (only the
in-memory `processed_data` was already extended). -/
theorem claim2_theorem :
    (∀ failsAt : CommitStep → Bool,
        CommitStep.writeProgress ∈ runSteps failsAt commitSteps →
          runSteps failsAt commitSteps =
            [CommitStep.extendData, CommitStep.writeOutput, CommitStep.writeProgress])
    ∧ (∀ failsAt : CommitStep → Bool, failsAt CommitStep.writeOutput = true →
        CommitStep.writeProgress ∉ runSteps failsAt commitSteps)
    ∧ (∀ (α : Type) (processedData batchEntries outFile : List α)
        (pb tb : Nat) (progressFile : Progress),
        save_batch_progress true processedData batchEntries pb tb outFile progressFile =
          (processedData ++ batchEntries, outFile, progressFile))
    ∧ (∀ (α : Type) (processedData batchEntries outFile : List α)
        (pb tb : Nat) (progressFile : Progress),
        save_batch_progress false processedData batchEntries pb tb outFile progressFile =
          (processedData ++ batchEntries, processedData ++ batchEntries, ⟨pb, tb⟩)) := by
  refine ⟨?_, ?_, ?_, ?_⟩
  · intro failsAt h
    cases h1 : failsAt CommitStep.extendData <;>
      cases h2 : failsAt CommitStep.writeOutput <;>
        cases h3 : failsAt CommitStep.writeProgress <;>
          simp [runSteps, commitSteps, h1, h2, h3] at h ⊢
  · intro failsAt h2
    cases h1 : failsAt CommitStep.extendData <;>
      simp [runSteps, commitSteps, h1, h2]
  · intro α pd be outf pb tb pf
    simp [save_batch_progress]
  · intro α pd be outf pb tb pf
    simp [save_batch_progress]

/-- Witness for C2 with concrete step-failure functions and batch data. -/
theorem claim2_witness :
    runSteps (fun _ => false) commitSteps =
      [CommitStep.extendData, CommitStep.writeOutput, CommitStep.writeProgress]
    ∧ CommitStep.writeProgress ∉
        runSteps (fun s => s = CommitStep.writeOutput) commitSteps
    ∧ save_batch_progress true [0] [1, 2] 3 4 [0] ⟨2, 4⟩ = ([0, 1, 2], [0], ⟨2, 4⟩)
    ∧ save_batch_progress false [0] [1, 2] 3 4 [0] ⟨2, 4⟩ =
        ([0, 1, 2], [0, 1, 2], ⟨3, 4⟩) :=
  ⟨claim2_theorem.1 (fun _ => false) (by decide),
   claim2_theorem.2.1 (fun s => s = CommitStep.writeOutput) (by decide),
   claim2_theorem.2.2.1 Nat [0] [1, 2] [0] 3 4 ⟨2, 4⟩,
   claim2_theorem.2.2.2 Nat [0] [1, 2] [0] 3 4 ⟨2, 4⟩⟩

/-- C3: on startup `master_2.py` `process_dictionary` resumes at batch index
`processed_batches` (the loop visits exactly `range(processed_batches,
total_batches)`, whose first element is `processed_batches` when any work
remains), and when the computed `total_batches` differs from the stored one
the progress record is rewritten with the new total while `processed_batches`
is preserved, never reset. -/
theorem claim3_theorem :
    ∀ (stored : Progress) (numWords batchSize : Nat),
      (startup_reconcile stored numWords batchSize).1 = stored.processed_batches
      ∧ batchIndices (startup_reconcile stored numWords batchSize).1
            (startup_reconcile stored numWords batchSize).2.1 =
          List.range' stored.processed_batches
            (totalBatchesOf numWords batchSize - stored.processed_batches)
      ∧ (stored.total_batches ≠ totalBatchesOf numWords batchSize →
          (startup_reconcile stored numWords batchSize).2.2 =
            some ⟨stored.processed_batches, totalBatchesOf numWords batchSize⟩)
      ∧ (stored.total_batches = totalBatchesOf numWords batchSize →
          (startup_reconcile stored numWords batchSize).2.2 = none)
      ∧ (∀ r, (startup_reconcile stored numWords batchSize).2.2 = some r →
          r.processed_batches = stored.processed_batches)
      ∧ (stored.processed_batches < totalBatchesOf numWords batchSize →
          (batchIndices (startup_reconcile stored numWords batchSize).1
              (startup_reconcile stored numWords batchSize).2.1).head? =
            some stored.processed_batches) := by
  intro stored numWords batchSize
  refine ⟨rfl, rfl, ?_, ?_, ?_, ?_⟩
  · intro h
    simp [startup_reconcile, h]
  · intro h
    simp [startup_reconcile, h]
  · intro r hr
    by_cases h : stored.total_batches = totalBatchesOf numWords batchSize
    · simp [startup_reconcile, h] at hr
    · simp [startup_reconcile, h] at hr
      rw [← hr]
  · intro h
    have : totalBatchesOf numWords batchSize - stored.processed_batches ≠ 0 := by omega
    obtain ⟨k, hk⟩ := Nat.exists_eq_succ_of_ne_zero this
    show (batchIndices stored.processed_batches (totalBatchesOf numWords batchSize)).head? = _
    rw [batchIndices, hk, List.range'_succ]
    rfl

/-- Witness for C3: 25 words in batches of 10 (3 batches), with a stored
record of 2 processed out of a stale total of 5. -/
theorem claim3_witness :
    (startup_reconcile ⟨2, 5⟩ 25 10).1 = 2
    ∧ ((2 : Nat) ≠ 3 → True)
    ∧ (startup_reconcile ⟨2, 5⟩ 25 10).2.2 = some ⟨2, 3⟩
    ∧ (batchIndices (startup_reconcile ⟨2, 5⟩ 25 10).1
        (startup_reconcile ⟨2, 5⟩ 25 10).2.1).head? = some 2 := by
  have h := claim3_theorem ⟨2, 5⟩ 25 10
  exact ⟨h.1, fun _ => trivial, h.2.2.1 (by decide), h.2.2.2.2.2 (by decide)⟩

/-- C4 counterexample: `master_2.py` `_translate_meaning` has no blank-input
guard: on the whitespace-only meaning `" "` with an empty cache it invokes the
provider once and returns the provider's answer instead of the input
unchanged. -/
theorem claim4_counterexample :
    translate_meaning_master2 (fun _ => Except.ok "X") ⟨[], 0⟩ " " =
      ("X", ⟨[(" ", "X")], 1⟩) ∧
    (translate_meaning_master2 (fun _ => Except.ok "X") ⟨[], 0⟩ " ").1 ≠ " " ∧
    (translate_meaning_master2 (fun _ => Except.ok "X") ⟨[], 0⟩ " ").2.providerCalls ≠ 0 := by
  refine ⟨rfl, ?_, ?_⟩ <;> decide

/-- C4 (amended): `main.py` and `index.py` `translate_text` return empty or
whitespace-only strings unchanged without a provider call, enqueue or state
change, but the `_translate_meaning` entry points of `master.py` and
`master_2.py` have no such guard: they invoke the provider once for any
uncached meaning, whitespace-only ones included. -/
theorem claim4_theorem :
    (∀ (p : Provider) (st : TState) (t : String), pyStripBlank t = true →
        translate_text_main p st t = (Except.ok t, st, []))
    ∧ (∀ (st : QState) (t : String), pyStripBlank t = true →
        translate_text_index st t = (t, st))
    ∧ (∀ (p : Provider) (st : TState) (m v : String), st.cache.lookup m = none →
        p m = Except.ok v →
        translate_meaning_master2 p st m = (v, ⟨(m, v) :: st.cache, st.providerCalls + 1⟩))
    ∧ (∀ (p : Provider) (st : TState) (m v : String), st.cache.lookup m = none →
        p m = Except.ok v →
        translate_meaning_master p st m =
          (Except.ok v, ⟨(m, v) :: st.cache, st.providerCalls + 1⟩, [])) := by
  refine ⟨?_, ?_, ?_, ?_⟩
  · intro p st t h
    apply retryCall_ok
    show translate_text_main_body p st t = (Except.ok t, st)
    simp [translate_text_main_body, h]
  · intro st t h
    simp [translate_text_index, h]
  · intro p st m v h0 h1
    simp [translate_meaning_master2, h0, h1]
  · intro p st m v h0 h1
    apply retryCall_ok
    show translate_meaning_master_try p st m = (Except.ok v, _)
    simp [translate_meaning_master_try, h0, h1]

/-- Witness for C4 at the whitespace-only string `" "`. -/
theorem claim4_witness :
    translate_text_main (fun _ => Except.ok "X") ⟨[], 0⟩ " " = (Except.ok " ", ⟨[], 0⟩, [])
    ∧ translate_text_index ⟨[], [], 0⟩ " " = (" ", ⟨[], [], 0⟩)
    ∧ translate_meaning_master2 (fun _ => Except.ok "X") ⟨[], 0⟩ " " = ("X", ⟨[(" ", "X")], 1⟩)
    ∧ translate_meaning_master (fun _ => Except.ok "X") ⟨[], 0⟩ " " =
        (Except.ok "X", ⟨[(" ", "X")], 1⟩, []) :=
  ⟨claim4_theorem.1 _ _ _ (by decide), claim4_theorem.2.1 _ _ (by decide),
   claim4_theorem.2.2.1 _ ⟨[], 0⟩ _ _ rfl rfl, claim4_theorem.2.2.2 _ ⟨[], 0⟩ _ _ rfl rfl⟩

/-- The body of `main.py` `translate_text` on an uncached, all-ASCII,
non-blank text with a failing provider: one provider call, error raised,
cache unchanged. -/
theorem translate_text_main_body_fail (p : Provider) (st : TState) (t : String)
    (h0 : pyStripBlank t = false) (h1 : st.cache.lookup (get_content_hash t) = none)
    (h2 : pyIsAscii t = true) (h3 : p t = Except.error ()) :
    translate_text_main_body p st t =
      (Except.error (), ⟨st.cache, st.providerCalls + 1⟩) := by
  simp [translate_text_main_body, h0, h1, h2, h3]

/-- C7 counterexample: `master_2.py` `_translate_meaning` makes exactly one
provider attempt: with an always-failing provider and the uncached meaning
`"x"` it returns the original text after a single call - it does not retry up
to 3 attempts. -/
theorem claim7_counterexample :
    translate_meaning_master2 (fun _ => Except.error ()) ⟨[], 0⟩ "x" = ("x", ⟨[], 1⟩)
    ∧ (translate_meaning_master2 (fun _ => Except.error ()) ⟨[], 0⟩ "x").2.providerCalls ≠ 3 := by
  exact ⟨rfl, by decide⟩

/-- C7 (amended): only `main.py` `translate_text` retries a failing provider
call up to 3 attempts, with the tenacity `wait_exponential(multiplier=1,
min=4, max=10)` backoff (clamped to 4 seconds after each of the two failures)
before giving up.  `master.py` `_translate_meaning` catches every exception
inside the retried body and returns the input after a single provider
attempt, so its retry decorator never fires; `master_2.py`
`_translate_meaning` has no retry and degrades to the input after one
attempt; `index.py` `batch_translate` makes a single attempt per text and
propagates the error. -/
theorem claim7_theorem :
    (∀ (p : Provider) (st : TState) (t : String), pyStripBlank t = false →
        st.cache.lookup (get_content_hash t) = none → pyIsAscii t = true →
        (∀ u, p u = Except.error ()) →
        translate_text_main p st t =
          (Except.error (), ⟨st.cache, st.providerCalls + 3⟩, [4, 4]))
    ∧ (∀ (p : Provider) (st : TState) (m : String), st.cache.lookup m = none →
        (∀ u, p u = Except.error ()) →
        translate_meaning_master p st m =
          (Except.ok m, ⟨st.cache, st.providerCalls + 1⟩, []))
    ∧ (∀ (p : Provider) (st : TState) (m : String), st.cache.lookup m = none →
        (∀ u, p u = Except.error ()) →
        translate_meaning_master2 p st m = (m, ⟨st.cache, st.providerCalls + 1⟩))
    ∧ (∀ (p : Provider) (t : String), p t = Except.error () →
        batch_translate p [t] = (Except.error (), 1)) := by
  refine ⟨?_, ?_, ?_, ?_⟩
  · intro p st t h0 h1 h2 hp
    have b1 := translate_text_main_body_fail p st t h0 h1 h2 (hp t)
    have b2 := translate_text_main_body_fail p ⟨st.cache, st.providerCalls + 1⟩ t h0 h1 h2 (hp t)
    have b3 := translate_text_main_body_fail p ⟨st.cache, st.providerCalls + 1 + 1⟩ t h0 h1 h2 (hp t)
    have w1 : wait_exponential 1 4 10 1 = 4 := by decide
    have w2 : wait_exponential 1 4 10 2 = 4 := by decide
    show retryCall (fun s => translate_text_main_body p s t) st = _
    simp only [retryCall, b1, b2, b3, w1, w2, Prod.mk.injEq, TState.mk.injEq]
  · intro p st m h0 hp
    apply retryCall_ok
    show translate_meaning_master_try p st m = (Except.ok m, _)
    simp [translate_meaning_master_try, h0, hp m]
  · intro p st m h0 hp
    simp [translate_meaning_master2, h0, hp m]
  · intro p t hp
    simp [batch_translate, hp]

/-- Witness for C7 at the uncached ASCII text `"x"` with an always-failing
provider. -/
theorem claim7_witness :
    translate_text_main (fun _ => Except.error ()) ⟨[], 0⟩ "x" =
      (Except.error (), ⟨[], 3⟩, [4, 4])
    ∧ translate_meaning_master (fun _ => Except.error ()) ⟨[], 0⟩ "x" =
        (Except.ok "x", ⟨[], 1⟩, [])
    ∧ translate_meaning_master2 (fun _ => Except.error ()) ⟨[], 0⟩ "x" = ("x", ⟨[], 1⟩)
    ∧ batch_translate (fun _ => Except.error ()) ["x"] = (Except.error (), 1) :=
  ⟨claim7_theorem.1 _ ⟨[], 0⟩ _ (by decide) rfl (by decide) (fun _ => rfl),
   claim7_theorem.2.1 _ ⟨[], 0⟩ _ rfl (fun _ => rfl),
   claim7_theorem.2.2.1 _ ⟨[], 0⟩ _ rfl (fun _ => rfl),
   claim7_theorem.2.2.2 _ _ rfl⟩

/-- C8 counterexample: `"aé"` contains an ASCII character, yet `main.py`
`translate_text` passes it through unchanged without attempting translation
(zero provider calls), because `str.isascii()` demands that every character be
ASCII. -/
theorem claim8_counterexample :
    hasAsciiChar "aé" = true ∧ pyIsAscii "aé" = false ∧
    translate_text_main (fun _ => Except.ok "X") ⟨[], 0⟩ "aé" =
      (Except.ok "aé", ⟨[], 0⟩, []) := by
  refine ⟨by decide, by decide, rfl⟩

/-- C8 (amended): the at-least-one-ASCII-character heuristic is `index.py`'s:
its `translate_text` enqueues an uncached non-blank text exactly when some
character is ASCII and passes it through otherwise.  `main.py` instead
requires the whole string to be ASCII (`str.isascii()`): a non-blank uncached
text with any non-ASCII character is passed through unchanged, and the
provider is attempted only when every character is ASCII. -/
theorem claim8_theorem :
    (∀ (st : QState) (t : String), pyStripBlank t = false →
        st.cache.lookup (get_content_hash t) = none →
        (hasAsciiChar t = true →
          translate_text_index st t =
            (t, { st with queue := st.queue ++ [(t, get_content_hash t)] }))
        ∧ (hasAsciiChar t = false → translate_text_index st t = (t, st)))
    ∧ (∀ (p : Provider) (st : TState) (t : String), pyStripBlank t = false →
        st.cache.lookup (get_content_hash t) = none →
        (pyIsAscii t = false → translate_text_main p st t = (Except.ok t, st, []))
        ∧ (∀ v, pyIsAscii t = true → p t = Except.ok v →
            translate_text_main p st t =
              (Except.ok v, ⟨(get_content_hash t, v) :: st.cache, st.providerCalls + 1⟩, []))) := by
  refine ⟨?_, ?_⟩
  · intro st t h0 h1
    constructor
    · intro h2
      simp [translate_text_index, h0, h1, h2]
    · intro h2
      simp [translate_text_index, h0, h1, h2]
  · intro p st t h0 h1
    constructor
    · intro h2
      apply retryCall_ok
      show translate_text_main_body p st t = (Except.ok t, st)
      simp [translate_text_main_body, h0, h1, h2]
    · intro v h2 h3
      apply retryCall_ok
      show translate_text_main_body p st t = _
      simp [translate_text_main_body, h0, h1, h2, h3]

/-- Witness for C8 at `"x"` (all-ASCII) and `"é"` (no ASCII character). -/
theorem claim8_witness :
    translate_text_index ⟨[], [], 0⟩ "x" = ("x", ⟨[], [("x", get_content_hash "x")], 0⟩)
    ∧ translate_text_index ⟨[], [], 0⟩ "é" = ("é", ⟨[], [], 0⟩)
    ∧ translate_text_main (fun _ => Except.ok "X") ⟨[], 0⟩ "é" = (Except.ok "é", ⟨[], 0⟩, [])
    ∧ translate_text_main (fun _ => Except.ok "X") ⟨[], 0⟩ "x" =
        (Except.ok "X", ⟨[(get_content_hash "x", "X")], 1⟩, []) :=
  ⟨(claim8_theorem.1 ⟨[], [], 0⟩ "x" (by decide) rfl).1 (by decide),
   (claim8_theorem.1 ⟨[], [], 0⟩ "é" (by decide) rfl).2 (by decide),
   (claim8_theorem.2 _ ⟨[], 0⟩ "é" (by decide) rfl).1 (by decide),
   (claim8_theorem.2 _ ⟨[], 0⟩ "x" (by decide) rfl).2 "X" (by decide) rfl⟩

/-- `translate_meanings` is the unfiltered translation of the meanings with
the blank results dropped. -/
theorem translate_meanings_filter {σ : Type} (tr : σ → String → String × σ) :
    ∀ (ms : List String) (st : σ),
      translate_meanings tr st ms =
        ((map_translate tr st ms).1.filter (fun t => !(pyStripBlank t)),
         (map_translate tr st ms).2) := by
  intro ms
  induction ms with
  | nil => intro st; simp [translate_meanings, map_translate]
  | cons m rest ih =>
    intro st
    simp only [translate_meanings, map_translate, ih]
    cases h : pyStripBlank (tr st m).1 <;> simp [h, List.filter_cons]

/-- The unfiltered translation preserves the number of meanings. -/
theorem map_translate_length {σ : Type} (tr : σ → String → String × σ) :
    ∀ (ms : List String) (st : σ), (map_translate tr st ms).1.length = ms.length := by
  intro ms
  induction ms with
  | nil => intro st; simp [map_translate]
  | cons m rest ih => intro st; simp [map_translate, ih]

/-- C9: in `_process_single_entry` the output `meaning` list is exactly the
translated English meanings with the empty-or-whitespace-only results
omitted, hence never longer than the English gloss list, and it can be
strictly shorter (witnessed by a translation that turns one gloss into a
blank string). -/
theorem claim9_theorem :
    (∀ (σ : Type) (tr : σ → String → String × σ) (st : σ) (e : WordEntry),
        (process_single_entry tr st e).1.meaning =
          (map_translate tr st (english_meanings e)).1.filter (fun t => !(pyStripBlank t)))
    ∧ (∀ (σ : Type) (tr : σ → String → String × σ) (st : σ) (e : WordEntry),
        (process_single_entry tr st e).1.meaning.length ≤ (english_meanings e).length)
    ∧ (∃ (tr : Unit → String → String × Unit) (e : WordEntry),
        (process_single_entry tr () e).1.meaning.length < (english_meanings e).length) := by
  have hfil : ∀ (σ : Type) (tr : σ → String → String × σ) (st : σ) (e : WordEntry),
      (process_single_entry tr st e).1.meaning =
        (map_translate tr st (english_meanings e)).1.filter (fun t => !(pyStripBlank t)) := by
    intro σ tr st e
    show (translate_meanings tr st (english_meanings e)).1 = _
    rw [translate_meanings_filter]
  refine ⟨hfil, ?_, ?_⟩
  · intro σ tr st e
    rw [hfil]
    calc ((map_translate tr st (english_meanings e)).1.filter
            (fun t => !(pyStripBlank t))).length
        ≤ (map_translate tr st (english_meanings e)).1.length :=
          List.length_filter_le _ _
      _ = (english_meanings e).length := map_translate_length tr _ st
  · refine ⟨fun u m => (if m = "b" then " " else m, u),
      ⟨[], [], [⟨[⟨"eng", "a"⟩, ⟨"eng", "b"⟩]⟩]⟩, ?_⟩
    decide

/-- C10: in `index.py`, an uncached non-blank text with an ASCII character is
returned unchanged by a single `translate_text` call, which only appends the
`(text, fingerprint)` work unit to the queue; the first traversal pass leaves
the document leaf unchanged; the worker's `_process_batch` then stores the
provider's translation in the cache, and only the second traversal pass
replaces the leaf with the translated text. -/
theorem claim10_theorem :
    ∀ (st : QState) (t : String), pyStripBlank t = false →
      st.cache.lookup (get_content_hash t) = none → hasAsciiChar t = true →
      translate_text_index st t =
        (t, { st with queue := st.queue ++ [(t, get_content_hash t)] })
      ∧ process_content_item st (CItem.leaf t) =
          (CItem.leaf t, { st with queue := st.queue ++ [(t, get_content_hash t)] })
      ∧ (∀ (p : Provider) (tr : String), p t = Except.ok tr →
          process_batch_index p st [(t, get_content_hash t)] =
            Except.ok { st with cache := (get_content_hash t, tr) :: st.cache,
                                providerCalls := st.providerCalls + 1 }
          ∧ ∀ st2 : QState, st2.cache = (get_content_hash t, tr) :: st.cache →
              process_content_item st2 (CItem.leaf t) = (CItem.leaf tr, st2)) := by
  intro st t h0 h1 h2
  have htt : translate_text_index st t =
      (t, { st with queue := st.queue ++ [(t, get_content_hash t)] }) := by
    simp [translate_text_index, h0, h1, h2]
  refine ⟨htt, ?_, ?_⟩
  · simp [process_content_item, htt]
  · intro p tr hp
    constructor
    · simp [process_batch_index, batch_translate, hp, writeTranslations]
    · intro st2 hc
      have hcached : translate_text_index st2 t = (tr, st2) := by
        simp [translate_text_index, h0, hc, lookup_head]
      simp [process_content_item, hcached]

/-- Witness for C10 at the uncached ASCII text `"hello"`. -/
theorem claim10_witness :
    translate_text_index ⟨[], [], 0⟩ "hello" =
      ("hello", ⟨[], [("hello", get_content_hash "hello")], 0⟩)
    ∧ process_content_item ⟨[], [], 0⟩ (CItem.leaf "hello") =
        (CItem.leaf "hello", ⟨[], [("hello", get_content_hash "hello")], 0⟩)
    ∧ process_batch_index (fun _ => Except.ok "नमस्ते") ⟨[], [], 0⟩
          [("hello", get_content_hash "hello")] =
        Except.ok ⟨[(get_content_hash "hello", "नमस्ते")], [], 1⟩
    ∧ process_content_item ⟨[(get_content_hash "hello", "नमस्ते")], [], 0⟩
          (CItem.leaf "hello") =
        (CItem.leaf "नमस्ते", ⟨[(get_content_hash "hello", "नमस्ते")], [], 0⟩) := by
  obtain ⟨h1, h2, h3⟩ := claim10_theorem ⟨[], [], 0⟩ "hello" (by decide) rfl (by decide)
  obtain ⟨h4, h5⟩ := h3 (fun _ => Except.ok "नमस्ते") "नमस्ते" rfl
  exact ⟨h1, h2, h4, h5 _ rfl⟩
